import Mathlib

/-!
Verification development for the private-isu web application
(src/private_isu/webapp/python/app.py).

The Python source is shallowly embedded: each database row type becomes a
structure, the SQL queries issued by the code become pure functions over an
in-memory table model, and the feed-assembly function `make_posts` becomes a
pure recursive function together with the list of store queries it issues.

Modelling conventions:
  * MySQL rows become structures with `Nat` ids and timestamps and `String`
    text columns.  The `del_flg` tinyint column is modelled as `Bool`
    (Python only tests its truthiness).
  * A SQL `SELECT ... WHERE k IN (...)` becomes `List.filter` over the table.
  * A Python dict comprehension `{row.k: row for row in rows}` followed by
    `.get k` becomes `(rows.filter (key = k)).getLast?` (later rows
    overwrite earlier ones in a dict).
  * `list(set(...))` becomes `List.dedup` (only membership in the resulting
    id list is ever observed).
  * `ORDER BY` clauses become `List.insertionSort` by the corresponding
    relation; where the SQL order is underdetermined (ties, or queries with
    no ORDER BY at all) the repository-level queries are modelled as
    relations on result lists instead (see the `RowsValid` definitions).
  * The `fetchone()` of a query keyed by a unique column becomes
    `List.find?`.
  * The in-place `comments.reverse()` of the Python loop is modelled by a
    functional reverse of the comment group; the two agree because input
    rows come from primary-key tables and hence carry distinct post ids.
-/

/-- A row of the `users` table. -/
structure User where
  id : Nat
  account_name : String
  passhash : String
  authority : Nat
  del_flg : Bool
  created_at : Nat
deriving DecidableEq

/-- A row of the `posts` table, restricted to the columns the modelled code
paths read (`imgdata` is never consumed by the feed-assembly logic). -/
structure Post where
  id : Nat
  user_id : Nat
  body : String
  mime : String
  created_at : Nat
deriving DecidableEq

/-- A row of the `comments` table. -/
structure Comment where
  id : Nat
  post_id : Nat
  user_id : Nat
  comment : String
  created_at : Nat
deriving DecidableEq

/-- The store of record: the three tables the modelled code touches. -/
structure DB where
  users : List User
  posts : List Post
  comments : List Comment
deriving DecidableEq

/-- A comment as attached to a hydrated post: the comment row plus the
resolved author (`comment["user"] = comment_users_dict.get(...)`, which may
be `None` and is deliberately not filtered). -/
structure HComment where
  comment : Comment
  user : Option User
deriving DecidableEq

/-- A hydrated post view: the post row plus the keys the `make_posts` loop
adds (`post["user"]`, `post["comment_count"]`, `post["comments"]`).  Kept
posts always carry a real, non-deleted author. -/
structure HPost where
  post : Post
  user : User
  comment_count : Nat
  comments : List HComment
deriving DecidableEq

/-- app.py line 22: `POSTS_PER_PAGE = 20`. -/
def POSTS_PER_PAGE : Nat := 20

/-- The within-one-post fetch order of comments: `created_at` descending
(newest first), as in `ORDER BY created_at DESC`. -/
def commentRecentFirst (a b : Comment) : Prop :=
  b.created_at ≤ a.created_at

instance : DecidableRel commentRecentFirst :=
  fun a b => decidable_of_iff (b.created_at ≤ a.created_at) Iff.rfl

instance : IsTotal Comment commentRecentFirst :=
  ⟨fun a b => Nat.le_total b.created_at a.created_at⟩

instance : IsTrans Comment commentRecentFirst :=
  ⟨fun _ _ _ h1 h2 => Nat.le_trans h2 h1⟩

/-- The global fetch order of the comment queries in `make_posts`
(app.py lines 185 and 198): `ORDER BY post_id, created_at DESC`. -/
def commentFetchOrder (a b : Comment) : Prop :=
  a.post_id < b.post_id ∨ (a.post_id = b.post_id ∧ b.created_at ≤ a.created_at)

instance : DecidableRel commentFetchOrder :=
  fun a b => decidable_of_iff
    (a.post_id < b.post_id ∨ (a.post_id = b.post_id ∧ b.created_at ≤ a.created_at)) Iff.rfl

instance : IsTotal Comment commentFetchOrder := by
  constructor
  intro a b
  rcases Nat.lt_trichotomy a.post_id b.post_id with h | h | h
  · exact Or.inl (Or.inl h)
  · rcases Nat.le_total b.created_at a.created_at with h2 | h2
    · exact Or.inl (Or.inr ⟨h, h2⟩)
    · exact Or.inr (Or.inr ⟨h.symm, h2⟩)
  · exact Or.inr (Or.inl h)

instance : IsTrans Comment commentFetchOrder := by
  constructor
  intro a b c hab hbc
  rcases hab with h1 | ⟨h1, h1'⟩
  · rcases hbc with h2 | ⟨h2, _⟩
    · exact Or.inl (Nat.lt_trans h1 h2)
    · exact Or.inl (h2 ▸ h1)
  · rcases hbc with h2 | ⟨h2, h2'⟩
    · exact Or.inl (h1 ▸ h2)
    · exact Or.inr ⟨h1.trans h2, Nat.le_trans h2' h1'⟩

/-- The ids of the input post rows (app.py line 163:
`post_ids = [post["id"] for post in results]`). -/
def postIds (results : List Post) : List Nat :=
  results.map (fun p => p.id)

/-- The deduplicated author ids of the input post rows (app.py line 164:
`user_ids = list(set(post["user_id"] for post in results))`). -/
def postUserIds (results : List Post) : List Nat :=
  (results.map (fun p => p.user_id)).dedup

/-- The rows returned by `SELECT * FROM users WHERE id IN (ids)`. -/
def usersByIds (users : List User) (ids : List Nat) : List User :=
  users.filter (fun u => ids.contains u.id)

/-- Lookup in the dict `{user["id"]: user for user in rows}`: the last row
with the given id wins, absence gives `none`. -/
def dictGetUser (rows : List User) (uid : Nat) : Option User :=
  (rows.filter (fun u => u.id == uid)).getLast?

/-- The post-author map `users_dict` of app.py lines 167-172. -/
def postUsersDict (db : DB) (results : List Post) : Nat → Option User :=
  fun uid => dictGetUser (usersByIds db.users (postUserIds results)) uid

/-- The comment-count map of app.py lines 175-180:
`SELECT post_id, COUNT(*) FROM comments WHERE post_id IN (post_ids) GROUP BY
post_id`, read through `comment_counts.get(post_id, 0)`. -/
def commentCountsDict (db : DB) (results : List Post) : Nat → Nat :=
  fun pid =>
    if (postIds results).contains pid then
      (db.comments.filter (fun c => c.post_id == pid)).length
    else 0

/-- The at-most-three most recent comments of one post, newest first: the
per-partition result of the ranked subquery of app.py lines 190-199
(`ROW_NUMBER() OVER (PARTITION BY post_id ORDER BY created_at DESC)`,
keep `rn <= 3`).  SQL leaves the relative order of `created_at` ties
open; `insertionSort` fixes one admissible order. -/
def top3ForPost (comments : List Comment) (pid : Nat) : List Comment :=
  ((comments.filter (fun c => c.post_id == pid)).insertionSort commentRecentFirst).take 3

/-- The row set of the Top-N comment query of app.py lines 190-200: the
top-3-per-post rows for every post id in the set, delivered in
`ORDER BY post_id, created_at DESC`. -/
def rankedTop3Rows (comments : List Comment) (ids : List Nat) : List Comment :=
  List.insertionSort commentFetchOrder
    (ids.dedup.flatMap (fun pid => top3ForPost comments pid))

/-- The row set of the All-mode comment query of app.py lines 184-186:
`SELECT * FROM comments WHERE post_id IN (post_ids) ORDER BY post_id,
created_at DESC`. -/
def allCommentsRows (comments : List Comment) (ids : List Nat) : List Comment :=
  List.insertionSort commentFetchOrder
    (comments.filter (fun c => ids.contains c.post_id))

/-- The rows produced by the single comment query of `make_posts`
(app.py lines 183-200), selected by the `all_comments` flag. -/
def fetchedCommentRows (db : DB) (results : List Post) (all_comments : Bool) : List Comment :=
  if all_comments then allCommentsRows db.comments (postIds results)
  else rankedTop3Rows db.comments (postIds results)

/-- The grouping `comments_by_post` of app.py lines 202-208: the fetched
rows with a given post id, in fetch order (`.get(post_id, [])`). -/
def commentGroups (db : DB) (results : List Post) (all_comments : Bool) : Nat → List Comment :=
  fun pid => (fetchedCommentRows db results all_comments).filter (fun c => c.post_id == pid)

/-- The set `comment_user_ids` of app.py lines 203-209: the author ids of
the fetched comment rows. -/
def commentUserIds (db : DB) (results : List Post) (all_comments : Bool) : List Nat :=
  ((fetchedCommentRows db results all_comments).map (fun c => c.user_id)).dedup

/-- The comment-author map `comment_users_dict` of app.py lines 212-220:
empty when no comment was fetched, otherwise built from
`SELECT * FROM users WHERE id IN (comment_user_ids)`. -/
def commentUsersDict (db : DB) (results : List Post) (all_comments : Bool) : Nat → Option User :=
  if (commentUserIds db results all_comments).isEmpty then fun _ => none
  else fun uid => dictGetUser (usersByIds db.users (commentUserIds db results all_comments)) uid

/-- The body of the assembly loop of app.py lines 223-244 for a single post
row: resolve the author (skip the post when the author is absent or
del-flagged), attach the comment count, attach the comment group with each
comment's author resolved, and reverse the group to oldest-first. -/
def hydratePost (usersD : Nat → Option User) (countsD : Nat → Nat)
    (groupsD : Nat → List Comment) (cUsersD : Nat → Option User)
    (post : Post) : Option HPost :=
  match usersD post.user_id with
  | none => none
  | some u =>
    if u.del_flg then none
    else some
      { post := post
        user := u
        comment_count := countsD post.id
        comments :=
          ((groupsD post.id).map (fun c => { comment := c, user := cUsersD c.user_id })).reverse }

/-- The assembly loop of app.py lines 223-247 with its page cap: iterate
the input rows, skip rows whose author is dropped, append the hydrated
view, and break once the output has reached `POSTS_PER_PAGE` entries
(`n` counts the posts appended so far). -/
def assembleLoop (h : Post → Option HPost) : List Post → Nat → List HPost
  | [], _ => []
  | p :: rest, n =>
    match h p with
    | none => assembleLoop h rest n
    | some hp =>
      if POSTS_PER_PAGE ≤ n + 1 then [hp]
      else hp :: assembleLoop h rest (n + 1)

/-- The hydration function `make_posts` applies to each input row. -/
def postHydrator (db : DB) (results : List Post) (all_comments : Bool) : Post → Option HPost :=
  hydratePost (postUsersDict db results) (commentCountsDict db results)
    (commentGroups db results all_comments) (commentUsersDict db results all_comments)

/-- One downstream store query issued by `make_posts`, tagged with the id
set it is keyed by. -/
inductive Query where
  | usersByIdsQ (ids : List Nat)
  | commentCountsQ (ids : List Nat)
  | commentsAllQ (ids : List Nat)
  | commentsTop3Q (ids : List Nat)
  | commentUsersQ (ids : List Nat)
deriving DecidableEq

/-- Whether a query is the ranked Top-N comment query. -/
def Query.isTop3Q : Query → Bool
  | .commentsTop3Q _ => true
  | _ => false

/-- The downstream queries issued by one non-empty run of `make_posts`
(app.py lines 167-220): post authors, comment counts, one comment query
selected by `all_comments`, and the comment-author query, the latter
skipped when the comment query returned no rows
(`if comment_user_ids:`). -/
def make_posts_queries (db : DB) (results : List Post) (all_comments : Bool) : List Query :=
  [Query.usersByIdsQ (postUserIds results),
   Query.commentCountsQ (postIds results),
   if all_comments then Query.commentsAllQ (postIds results)
   else Query.commentsTop3Q (postIds results)] ++
  (if (commentUserIds db results all_comments).isEmpty then []
   else [Query.commentUsersQ (commentUserIds db results all_comments)])

/-- app.py lines 154-249, `make_posts`: the issued queries paired with the
assembled hydrated views.  An empty input short-circuits to empty output
with no queries (`if not results: return []`). -/
def make_posts_run (db : DB) (results : List Post) (all_comments : Bool) :
    List Query × List HPost :=
  if results.isEmpty then ([], [])
  else
    (make_posts_queries db results all_comments,
     assembleLoop (postHydrator db results all_comments) results 0)

/-- The value returned by `make_posts`. -/
def make_posts (db : DB) (results : List Post) (all_comments : Bool) : List HPost :=
  (make_posts_run db results all_comments).2

/-! ### Credential hasher (app.py lines 118-136)

The external digest invocation is
`printf %s {src} | openssl dgst -sha512 | sed 's/^.*= //'` run through
`subprocess.check_output(..., shell=True)`.  The behaviour of the external
`openssl` binary on a given stdin is a parameter of the model (an exit code
and an output string); `printf` and `sed` are modelled concretely.  The
exit status of an `sh` pipeline without `pipefail` is the exit status of
its last command, here `sed`, which succeeds on any input. -/

/-- The observable behaviour of one external command invocation: its exit
code and its standard output. -/
structure ExtCmd where
  exitCode : Nat
  output : String
deriving DecidableEq

/-- Splits a character sequence at each occurrence of the two-character
separator `"= "` (the structural analogue of `String.splitOn "= "`). -/
def splitOnEqSpace : List Char → List (List Char)
  | [] => [[]]
  | '=' :: ' ' :: rest => [] :: splitOnEqSpace rest
  | c :: rest =>
    match splitOnEqSpace rest with
    | [] => [[c]]
    | h :: t => (c :: h) :: t

/-- Splits a character sequence into its newline-separated lines. -/
def splitLines : List Char → List (List Char)
  | [] => [[]]
  | '\n' :: rest => [] :: splitLines rest
  | c :: rest =>
    match splitLines rest with
    | [] => [[c]]
    | h :: t => (c :: h) :: t

/-- One line through `sed 's/^.*= //'`: the greedy `^.*= ` deletes
everything up to and including the last occurrence of the two-character
separator, and a line without the separator passes unchanged. -/
def sedStripLine (l : List Char) : List Char :=
  ((splitOnEqSpace l).getLast?).getD l

/-- `sed 's/^.*= //'` over a whole output: applied line by line. -/
def sedStrip (s : String) : String :=
  String.mk (List.intercalate ['\n'] ((splitLines s.data).map sedStripLine))

/-- A whitespace character in the sense of Python's `str.strip()`
(restricted to the ASCII whitespace that occurs in command output). -/
def isSpaceChar (c : Char) : Bool :=
  c == ' ' || c == '\t' || c == '\n' || c == '\r'

/-- Python's `str.strip()`: removes leading and trailing whitespace. -/
def pyStrip (s : String) : String :=
  String.mk (((s.data.dropWhile isSpaceChar).reverse.dropWhile isSpaceChar).reverse)

/-- The pipeline `printf %s src | openssl dgst -sha512 | sed 's/^.*= //'`
given the behaviour of the external `openssl` on `src`: `sed` transforms
whatever `openssl` printed, and the pipeline's exit status is the status
of `sed`, which is `0` regardless of how `openssl` exited. -/
def pipelineRun (openssl : String → ExtCmd) (src : String) : ExtCmd :=
  { exitCode := 0, output := sedStrip (openssl src).output }

/-- Result of a credential-hasher invocation: a hash string, or the fatal
error `subprocess.check_output` raises on a nonzero exit status. -/
inductive DigestResult where
  | ok (hash : String)
  | fatal (exitCode : Nat)
deriving DecidableEq

/-- `subprocess.check_output`: raises (`fatal`) exactly when the command's
exit status is nonzero, otherwise returns the captured output. -/
def check_output (r : ExtCmd) : DigestResult :=
  if r.exitCode ≠ 0 then DigestResult.fatal r.exitCode else DigestResult.ok r.output

/-- app.py lines 118-126, `digest`: run the pipeline through
`check_output` and strip the result. -/
def digest (openssl : String → ExtCmd) (src : String) : DigestResult :=
  match check_output (pipelineRun openssl src) with
  | DigestResult.fatal c => DigestResult.fatal c
  | DigestResult.ok out => DigestResult.ok (pyStrip out)

/-! For the pure credential chain and the login path the digest is taken
as an abstract pure function `H : String → String` of the hashed text
(its value on the paths below is the successful-hash case). -/

/-- app.py lines 129-131, `calculate_salt`. -/
def calculate_salt (H : String → String) (account_name : String) : String :=
  H account_name

/-- app.py lines 134-136, `calculate_passhash`:
`digest("%s:%s" % (password, calculate_salt(account_name)))`. -/
def calculate_passhash (H : String → String) (account_name password : String) : String :=
  H (password ++ ":" ++ calculate_salt H account_name)

/-- app.py lines 95-106, `try_login`: fetch the row with
`SELECT * FROM users WHERE account_name = %s AND del_flg = 0` (the
account-name column is unique, so `find?` models `fetchone`), then return
the user iff the recomputed passhash equals the stored one. -/
def try_login (H : String → String) (db : DB) (account_name password : String) : Option User :=
  match db.users.find? (fun u => u.account_name == account_name && !u.del_flg) with
  | some user =>
    if calculate_passhash H user.account_name password == user.passhash then some user
    else none
  | none => none

/-- app.py lines 139-151, `get_session_user`: when the session holds a
user id, re-read the row with `SELECT * FROM users WHERE id = %s` and
return it as is (no `del_flg` check); otherwise no session user. -/
def get_session_user (db : DB) (sessionUserId : Option Nat) : Option User :=
  match sessionUserId with
  | some uid => db.users.find? (fun u => u.id == uid)
  | none => none

/-! ### Registration validation (app.py lines 109-115 and 341-367) -/

/-- Python `re.match(r"[cls]{n,}", s)`: anchored at the start only, it
succeeds iff the first `n` characters exist and are all in the class
(matching is greedy but only existence is tested). -/
def reMatchAtLeast (cls : Char → Bool) (n : Nat) (s : String) : Bool :=
  n ≤ s.length && (s.toList.take n).all cls

/-- The character class `[0-9a-zA-Z]`. -/
def alnumChar (c : Char) : Bool :=
  c.isAlphanum

/-- The character class `[0-9a-zA-Z_]`. -/
def wordChar (c : Char) : Bool :=
  c.isAlphanum || c == '_'

/-- app.py lines 109-115, `validate_user`: `re.match(r"[0-9a-zA-Z]{3,}",
account_name)` and `re.match(r"[0-9a-zA-Z_]{6,}", password)` (both
patterns are unanchored at the end). -/
def validate_user (account_name password : String) : Bool :=
  if !(reMatchAtLeast alnumChar 3 account_name) then false
  else if !(reMatchAtLeast wordChar 6 password) then false
  else true

/-- A store access made on the registration path proper (the uniqueness
probe and the insert of app.py lines 355-363). -/
inductive StoreOp where
  | selectUserByName (name : String)
  | insertUser (name passhash : String)
deriving DecidableEq

/-- Outcome of a registration request. -/
inductive RegOutcome where
  | redirectHome
  | validationError
  | duplicateName
  | registered
deriving DecidableEq

/-- app.py lines 341-367, `post_register`: the registration-path store
accesses paired with the outcome.  `me` is the already-resolved session
user (session resolution is the Session Resolver's own store access and
precedes this handler's logic).  Validation failure returns before the
uniqueness probe, the probe precedes the insert. -/
def post_register (H : String → String) (db : DB) (me : Option User)
    (account_name password : String) : List StoreOp × RegOutcome :=
  match me with
  | some _ => ([], RegOutcome.redirectHome)
  | none =>
    if !(validate_user account_name password) then ([], RegOutcome.validationError)
    else
      match db.users.find? (fun u => u.account_name == account_name) with
      | some _ => ([StoreOp.selectUserByName account_name], RegOutcome.duplicateName)
      | none =>
        ([StoreOp.selectUserByName account_name,
          StoreOp.insertUser account_name (calculate_passhash H account_name password)],
         RegOutcome.registered)

/-! ### Post repository selection modes (app.py lines 377-478)

Each mode issues a `SELECT` over `posts` with `ORDER BY created_at DESC`
and no further ordering column, so the SQL result order is determined only
up to permutations of `created_at` ties.  The queries are therefore
modelled as relations: a list is a valid result iff it consists of exactly
the matching rows and is sorted newest-first. -/

/-- The order imposed by `ORDER BY created_at DESC` on post rows. -/
def createdDescPost (a b : Post) : Prop :=
  b.created_at ≤ a.created_at

instance : DecidableRel createdDescPost :=
  fun a b => decidable_of_iff (b.created_at ≤ a.created_at) Iff.rfl

/-- app.py lines 384-387 (`get_index`): valid results of
`SELECT ... FROM posts ORDER BY created_at DESC LIMIT POSTS_PER_PAGE * 2`:
a prefix of length `POSTS_PER_PAGE * 2` of some newest-first arrangement
of the whole table. -/
def indexRowsValid (db : DB) (rows : List Post) : Prop :=
  ∃ arranged : List Post, arranged.Perm db.posts ∧
    List.Pairwise createdDescPost arranged ∧
    rows = arranged.take (POSTS_PER_PAGE * 2)

/-- app.py lines 407-410 (`get_user_list`): valid results of
`SELECT ... FROM posts WHERE user_id = %s ORDER BY created_at DESC`. -/
def userRowsValid (db : DB) (uid : Nat) (rows : List Post) : Prop :=
  rows.Perm (db.posts.filter (fun p => p.user_id == uid)) ∧
    List.Pairwise createdDescPost rows

/-- app.py lines 456-459 (`get_posts` with a cursor): valid results of
`SELECT ... FROM posts WHERE created_at <= %s ORDER BY created_at DESC`. -/
def cursorRowsValid (db : DB) (cursor : Nat) (rows : List Post) : Prop :=
  rows.Perm (db.posts.filter (fun p => p.created_at ≤ cursor)) ∧
    List.Pairwise createdDescPost rows

/-- app.py lines 461-463 (`get_posts` without a cursor): valid results of
`SELECT ... FROM posts ORDER BY created_at DESC`. -/
def allRowsValid (db : DB) (rows : List Post) : Prop :=
  rows.Perm db.posts ∧ List.Pairwise createdDescPost rows

/-- app.py line 475 (`get_posts_id`): valid results of
`SELECT * FROM posts WHERE id = %s` (note: no ORDER BY at all). -/
def byIdRowsValid (db : DB) (pid : Nat) (rows : List Post) : Prop :=
  rows.Perm (db.posts.filter (fun p => p.id == pid))

/-! ### Definitions taken from the spec's words, for comparison with the
code-derived definitions above. -/

/-- Modelled from the spec: the total result order the spec claims of the
Post Repository, `created_at` descending with ties broken by descending
post identity. -/
def specPostOrder (a b : Post) : Prop :=
  b.created_at < a.created_at ∨ (a.created_at = b.created_at ∧ b.id < a.id)

instance : DecidableRel specPostOrder :=
  fun a b => decidable_of_iff
    (b.created_at < a.created_at ∨ (a.created_at = b.created_at ∧ b.id < a.id)) Iff.rfl

/-- Modelled from the spec: the account-name rule of the validation
claim, at least 3 characters and alphanumeric only. -/
def specNameRule (s : String) : Bool :=
  3 ≤ s.length && s.toList.all alnumChar

/-- Modelled from the spec: the password rule of the validation claim, at
least 6 characters, all from `[0-9a-zA-Z_]`. -/
def specPasswordRule (s : String) : Bool :=
  6 ≤ s.length && s.toList.all wordChar

/-! ### Helper lemmas about the feed assembler -/

/-- The assembly loop with `n` posts already emitted produces the first
`POSTS_PER_PAGE - n` hydrated posts of the remaining rows: skipped rows
do not consume cap slots. -/
theorem assembleLoop_eq_take (h : Post → Option HPost) :
    ∀ (l : List Post) (n : Nat), n < POSTS_PER_PAGE →
      assembleLoop h l n = (l.filterMap h).take (POSTS_PER_PAGE - n) := by
  intro l
  induction l with
  | nil => intro n _; simp [assembleLoop]
  | cons p rest ih =>
    intro n hn
    cases hp : h p with
    | none => simp [assembleLoop, hp, List.filterMap_cons, ih n hn]
    | some v =>
      by_cases hcap : POSTS_PER_PAGE ≤ n + 1
      · have hone : POSTS_PER_PAGE - n = 1 := by omega
        simp [assembleLoop, hp, hcap, List.filterMap_cons, hone]
      · have h1 : n + 1 < POSTS_PER_PAGE := by omega
        have h2 : POSTS_PER_PAGE - n = (POSTS_PER_PAGE - (n + 1)) + 1 := by omega
        simp [assembleLoop, hp, hcap, List.filterMap_cons, h2, ih (n + 1) h1]

/-- `make_posts` is exactly the first `POSTS_PER_PAGE` hydrated views of
the input rows; author-dropped rows are absent and do not count toward
the cap. -/
theorem make_posts_eq_take (db : DB) (results : List Post) (ac : Bool) :
    make_posts db results ac =
      (results.filterMap (postHydrator db results ac)).take POSTS_PER_PAGE := by
  unfold make_posts make_posts_run
  cases hres : results.isEmpty with
  | true =>
    have : results = [] := List.isEmpty_iff.mp hres
    subst this
    simp
  | false =>
    simpa [hres] using assembleLoop_eq_take (postHydrator db results ac) results 0 (by
      unfold POSTS_PER_PAGE; omega)

/-- Inversion of the per-row hydration step: a kept row has a resolved,
non-deleted author and the stated hydrated shape. -/
theorem postHydrator_eq_some {db : DB} {results : List Post} {ac : Bool} {p : Post} {hp : HPost}
    (h : postHydrator db results ac p = some hp) :
    ∃ u, postUsersDict db results p.user_id = some u ∧ u.del_flg = false ∧
      hp = { post := p, user := u,
             comment_count := commentCountsDict db results p.id,
             comments := ((commentGroups db results ac p.id).map
               (fun c => { comment := c,
                           user := commentUsersDict db results ac c.user_id })).reverse } := by
  unfold postHydrator hydratePost at h
  split at h
  · exact absurd h (by simp)
  · rename_i u hu
    by_cases hdel : u.del_flg
    · rw [if_pos hdel] at h
      exact absurd h (by simp)
    · rw [if_neg hdel] at h
      exact ⟨u, hu, by simpa using hdel, (Option.some_inj.mp h).symm⟩

/-- Every output post of `make_posts` arises from some input row by the
hydration step. -/
theorem mem_make_posts {db : DB} {results : List Post} {ac : Bool} {hp : HPost}
    (h : hp ∈ make_posts db results ac) :
    ∃ p ∈ results, postHydrator db results ac p = some hp := by
  rw [make_posts_eq_take] at h
  have h2 : hp ∈ results.filterMap (postHydrator db results ac) :=
    (List.take_sublist _ _).mem h
  rcases List.mem_filterMap.mp h2 with ⟨p, hpmem, hph⟩
  exact ⟨p, hpmem, hph⟩

/-- The fetched comment rows are sorted in the global fetch order
(post id ascending, `created_at` descending), in either mode. -/
theorem sorted_fetchedCommentRows (db : DB) (results : List Post) (ac : Bool) :
    List.Pairwise commentFetchOrder (fetchedCommentRows db results ac) := by
  unfold fetchedCommentRows allCommentsRows rankedTop3Rows
  cases ac
  · simpa using List.sorted_insertionSort commentFetchOrder
      ((postIds results).dedup.flatMap (fun pid => top3ForPost db.comments pid))
  · simpa using List.sorted_insertionSort commentFetchOrder
      (db.comments.filter (fun c => (postIds results).contains c.post_id))

/-- Each per-post comment group is newest-first. -/
theorem pairwise_commentGroups (db : DB) (results : List Post) (ac : Bool) (pid : Nat) :
    List.Pairwise commentRecentFirst (commentGroups db results ac pid) := by
  have hs := sorted_fetchedCommentRows db results ac
  have hsub : List.Pairwise commentFetchOrder
      ((fetchedCommentRows db results ac).filter (fun c => c.post_id == pid)) :=
    hs.sublist (List.filter_sublist _)
  refine List.Pairwise.imp_of_mem ?_ hsub
  intro a b ha hb hab
  have hpa : a.post_id = pid := by simpa using (List.mem_filter.mp ha).2
  have hpb : b.post_id = pid := by simpa using (List.mem_filter.mp hb).2
  rcases hab with h | ⟨_, h⟩
  · exact absurd h (by omega)
  · exact h

/-- Comments selected for a post carry that post's id. -/
theorem mem_top3ForPost {cs : List Comment} {pid : Nat} {c : Comment}
    (h : c ∈ top3ForPost cs pid) : c.post_id = pid := by
  unfold top3ForPost at h
  have h1 : c ∈ (cs.filter (fun x => x.post_id == pid)).insertionSort commentRecentFirst :=
    (List.take_sublist _ _).mem h
  have h2 : c ∈ cs.filter (fun x => x.post_id == pid) := (List.mem_insertionSort _).mp h1
  simpa using (List.mem_filter.mp h2).2

/-- Filtering the concatenated per-post top-3 blocks by one post id of a
duplicate-free id list recovers exactly that post's block. -/
theorem filter_flatMap_top3 (cs : List Comment) :
    ∀ (l : List Nat), l.Nodup → ∀ pid ∈ l,
      (l.flatMap (fun q => top3ForPost cs q)).filter (fun c => c.post_id == pid) =
        top3ForPost cs pid := by
  intro l
  induction l with
  | nil => intro _ pid hmem; exact absurd hmem (List.not_mem_nil pid)
  | cons q t ih =>
    intro hnd pid hmem
    rw [List.flatMap_cons, List.filter_append]
    rcases List.mem_cons.mp hmem with heq | htail
    · subst heq
      have h1 : (top3ForPost cs pid).filter (fun c => c.post_id == pid) =
          top3ForPost cs pid :=
        List.filter_eq_self.mpr (fun c hc => by simp [mem_top3ForPost hc])
      have hnotin : pid ∉ t := (List.nodup_cons.mp hnd).1
      have h2 : (t.flatMap (fun q => top3ForPost cs q)).filter
          (fun c => c.post_id == pid) = [] := by
        rw [List.filter_eq_nil_iff]
        intro c hc
        rcases List.mem_flatMap.mp hc with ⟨q', hq', hcq'⟩
        have hcq : c.post_id = q' := mem_top3ForPost hcq'
        have hqne : q' ≠ pid := fun he => hnotin (he ▸ hq')
        simp [hcq, hqne]
      rw [h1, h2, List.append_nil]
    · have hq_ne : q ≠ pid := by
        rintro rfl
        exact (List.nodup_cons.mp hnd).1 htail
      have h1 : (top3ForPost cs q).filter (fun c => c.post_id == pid) = [] := by
        rw [List.filter_eq_nil_iff]
        intro c hc
        have hcq : c.post_id = q := mem_top3ForPost hc
        simp [hcq, hq_ne]
      rw [h1, List.nil_append]
      exact ih (List.nodup_cons.mp hnd).2 pid htail

/-- In Top-N mode, a post's comment group consists of exactly the top-3
block computed for that post (up to the tie-permuting final sort). -/
theorem commentGroups_perm_top3 (db : DB) (results : List Post) {pid : Nat}
    (hmem : pid ∈ postIds results) :
    (commentGroups db results false pid).Perm (top3ForPost db.comments pid) := by
  unfold commentGroups fetchedCommentRows rankedTop3Rows
  simp only [Bool.false_eq_true, if_false]
  have hperm := (List.perm_insertionSort commentFetchOrder
      ((postIds results).dedup.flatMap (fun q => top3ForPost db.comments q))).filter
      (fun c => c.post_id == pid)
  rwa [filter_flatMap_top3 db.comments (postIds results).dedup (List.nodup_dedup _) pid
      (List.mem_dedup.mpr hmem)] at hperm

/-- The top-3 block of a post has `min 3 (total comments)` entries. -/
theorem length_top3ForPost (cs : List Comment) (pid : Nat) :
    (top3ForPost cs pid).length = min 3 ((cs.filter (fun c => c.post_id == pid)).length) := by
  unfold top3ForPost
  rw [List.length_take, (List.perm_insertionSort commentRecentFirst _).length_eq]

/-- Every comment kept in a top-3 block is at least as recent as every
comment of the same post left out of it. -/
theorem top3ForPost_recent (cs : List Comment) (pid : Nat) {c c' : Comment}
    (hc : c ∈ top3ForPost cs pid)
    (hc' : c' ∈ cs.filter (fun x => x.post_id == pid))
    (hnot : c' ∉ top3ForPost cs pid) :
    c'.created_at ≤ c.created_at := by
  have hsorted : List.Sorted commentRecentFirst
      ((cs.filter (fun x => x.post_id == pid)).insertionSort commentRecentFirst) :=
    List.sorted_insertionSort commentRecentFirst _
  have hc'' : c' ∈ (cs.filter (fun x => x.post_id == pid)).insertionSort commentRecentFirst :=
    (List.mem_insertionSort _).mpr hc'
  rw [← List.take_append_drop 3
      ((cs.filter (fun x => x.post_id == pid)).insertionSort commentRecentFirst)] at hc''
  rcases List.mem_append.mp hc'' with htk | hdr
  · exact absurd htk hnot
  · exact hsorted.rel_of_mem_take_of_mem_drop hc hdr

/-! ### Concrete instances used by witnesses and counterexamples -/

/-- A non-deleted user. -/
def exUser1 : User :=
  { id := 1, account_name := "alice", passhash := "h1", authority := 0,
    del_flg := false, created_at := 1 }

/-- A post owned by `exUser1`. -/
def exPost1 : Post :=
  { id := 1, user_id := 1, body := "b1", mime := "image/png", created_at := 10 }

/-- A tiny store: one user, one post, no comments. -/
def exDb0 : DB := { users := [exUser1], posts := [exPost1], comments := [] }

/-- The one hydrated view `make_posts` produces from `exDb0`. -/
def exHPost1 : HPost :=
  { post := exPost1, user := exUser1, comment_count := 0, comments := [] }

/-- A comment on post 1 by user 1 with the given id and timestamp. -/
def exCom (i t : Nat) : Comment :=
  { id := i, post_id := 1, user_id := 1, comment := "c", created_at := t }

/-- A store with four comments on the single post. -/
def exDb4 : DB :=
  { users := [exUser1], posts := [exPost1],
    comments := [exCom 1 1, exCom 2 2, exCom 3 3, exCom 4 4] }

/-- Twenty-one posts, all owned by user 1, newest first. -/
def exManyPosts : List Post :=
  (List.range 21).map
    (fun i => { id := i + 1, user_id := 1, body := "b", mime := "image/png",
                created_at := 21 - i })

/-- A store in which user 1 owns 21 posts. -/
def exManyDb : DB := { users := [exUser1], posts := exManyPosts, comments := [] }

/-! ### Claims -/

/-- C1: for every input row set and both comment modes, every post in the
Feed Assembler's output has its author present in the author map with
`del_flg` unset, and the output is exactly the first `POSTS_PER_PAGE`
entries of the hydrated-and-filtered row list — a dropped post is absent
entirely and consumes no cap slot. -/
theorem C1_deleted_author_filter (db : DB) (results : List Post) (ac : Bool) :
    (∀ hp ∈ make_posts db results ac,
        postUsersDict db results hp.post.user_id = some hp.user ∧
          hp.user.del_flg = false) ∧
      make_posts db results ac =
        (results.filterMap (postHydrator db results ac)).take POSTS_PER_PAGE := by
  refine ⟨?_, make_posts_eq_take db results ac⟩
  intro hp hmem
  rcases mem_make_posts hmem with ⟨p, _, hph⟩
  rcases postHydrator_eq_some hph with ⟨u, hu, hdel, hshape⟩
  subst hshape
  exact ⟨hu, hdel⟩

/-- Witness for C1 at a concrete store. -/
theorem C1_witness :
    (∀ hp ∈ make_posts exDb0 [exPost1] false,
        postUsersDict exDb0 [exPost1] hp.post.user_id = some hp.user ∧
          hp.user.del_flg = false) ∧
      make_posts exDb0 [exPost1] false =
        ([exPost1].filterMap (postHydrator exDb0 [exPost1] false)).take POSTS_PER_PAGE :=
  C1_deleted_author_filter exDb0 [exPost1] false

/-- The query trace of a non-empty `make_posts` run. -/
theorem make_posts_run_queries (db : DB) (results : List Post) (ac : Bool)
    (hne : results ≠ []) :
    (make_posts_run db results ac).1 = make_posts_queries db results ac := by
  have hres : results.isEmpty = false := by
    cases results with
    | nil => exact absurd rfl hne
    | cons a l => rfl
  unfold make_posts_run
  simp [hres]

/-- C2: a non-empty `make_posts` run issues at most four downstream
queries, and the comment-author query is absent whenever the comment
query returned no rows. -/
theorem C2_constant_queries (db : DB) (results : List Post) (ac : Bool)
    (hne : results ≠ []) :
    (make_posts_run db results ac).1.length ≤ 4 ∧
      (fetchedCommentRows db results ac = [] →
        ∀ ids, Query.commentUsersQ ids ∉ (make_posts_run db results ac).1) := by
  rw [make_posts_run_queries db results ac hne]
  constructor
  · unfold make_posts_queries
    by_cases hc : (commentUserIds db results ac).isEmpty
    · simp [hc]
    · simp [hc]
  · intro hnil ids
    have hcu : commentUserIds db results ac = [] := by
      unfold commentUserIds
      rw [hnil]
      rfl
    unfold make_posts_queries
    rw [hcu]
    cases ac <;> simp

/-- Witness for C2 at a concrete store. -/
theorem C2_witness :
    ([exPost1] ≠ []) ∧
      ((make_posts_run exDb0 [exPost1] false).1.length ≤ 4 ∧
        (fetchedCommentRows exDb0 [exPost1] false = [] →
          ∀ ids, Query.commentUsersQ ids ∉ (make_posts_run exDb0 [exPost1] false).1)) :=
  ⟨by decide, C2_constant_queries exDb0 [exPost1] false (by decide)⟩

/-- C3 (amended): the assembler applies the page-size cap in every mode —
the output length is always `min POSTS_PER_PAGE (kept rows)` — so the
author-filtered view is capped too; the single-post view returns
everything only because it is handed at most one row. -/
theorem C3_cap_every_mode (db : DB) (results : List Post) (ac : Bool) :
    (make_posts db results ac).length =
        min POSTS_PER_PAGE (results.filterMap (postHydrator db results ac)).length ∧
      (results.length ≤ 1 →
        make_posts db results ac = results.filterMap (postHydrator db results ac)) := by
  constructor
  · rw [make_posts_eq_take, List.length_take]
  · intro hlen
    rw [make_posts_eq_take]
    apply List.take_of_length_le
    calc (results.filterMap (postHydrator db results ac)).length
        ≤ results.length := List.length_filterMap_le _ _
      _ ≤ 1 := hlen
      _ ≤ POSTS_PER_PAGE := by norm_num [POSTS_PER_PAGE]

/-- Witness for C3 (amended) at a concrete store. -/
theorem C3_witness :
    ([exPost1].length ≤ 1) ∧
      ((make_posts exDb0 [exPost1] false).length =
          min POSTS_PER_PAGE ([exPost1].filterMap (postHydrator exDb0 [exPost1] false)).length ∧
        ([exPost1].length ≤ 1 →
          make_posts exDb0 [exPost1] false =
            [exPost1].filterMap (postHydrator exDb0 [exPost1] false))) :=
  ⟨by decide, C3_cap_every_mode exDb0 [exPost1] false⟩

/-- C3 counterexample: the author-filtered view hands all 21 posts of
user 1 to the assembler — a valid result of the author query — every one
of them survives deleted-author filtering, yet the assembler returns only
`POSTS_PER_PAGE` of them. -/
theorem C3_counterexample :
    userRowsValid exManyDb 1 exManyPosts ∧
      (exManyPosts.filterMap (postHydrator exManyDb exManyPosts false)).length = 21 ∧
      (make_posts exManyDb exManyPosts false).length = 20 := by
  refine ⟨⟨?_, by decide⟩, by decide, by decide⟩
  have hfil : exManyDb.posts.filter (fun p => p.user_id == 1) = exManyPosts := by decide
  rw [hfil]

/-- C4: in Top-N mode the single comment query issued is the ranked
top-3 query (never the fetch-everything query), and each output post
carries exactly `min 3 (total comments)` comments, each of which is at
least as recent as every comment of the same post that was left out. -/
theorem C4_topn_three_most_recent (db : DB) (results : List Post)
    (hne : results ≠ []) :
    ((make_posts_run db results false).1.countP Query.isTop3Q = 1 ∧
      ∀ ids, Query.commentsAllQ ids ∉ (make_posts_run db results false).1) ∧
    ∀ hp ∈ make_posts db results false,
      hp.comments.length =
          min 3 ((db.comments.filter (fun c => c.post_id == hp.post.id)).length) ∧
      ∀ hc ∈ hp.comments, ∀ c' ∈ db.comments, c'.post_id = hp.post.id →
        c' ∉ hp.comments.map (fun x => x.comment) →
          c'.created_at ≤ hc.comment.created_at := by
  constructor
  · rw [make_posts_run_queries db results false hne]
    unfold make_posts_queries
    constructor
    · by_cases hc : (commentUserIds db results false).isEmpty
      · simp [hc, List.countP_cons, Query.isTop3Q]
      · simp [hc, List.countP_cons, Query.isTop3Q]
    · intro ids
      by_cases hc : (commentUserIds db results false).isEmpty
      · simp [hc]
      · simp [hc]
  · intro hp hmem
    rcases mem_make_posts hmem with ⟨p, hpmem, hph⟩
    rcases postHydrator_eq_some hph with ⟨u, hu, hdel, hshape⟩
    have hcomments : hp.comments = ((commentGroups db results false p.id).map
        (fun c => { comment := c, user := commentUsersDict db results false c.user_id })).reverse := by
      rw [hshape]
    have hpost : hp.post = p := by rw [hshape]
    have hpid : p.id ∈ postIds results := by
      unfold postIds
      exact List.mem_map.mpr ⟨p, hpmem, rfl⟩
    have hperm := commentGroups_perm_top3 db results hpid
    constructor
    · rw [hcomments, hpost, List.length_reverse, List.length_map, hperm.length_eq,
        length_top3ForPost]
    · intro hc hcmem c' hc'mem hc'pid hc'not
      rw [hcomments] at hcmem hc'not
      rw [hpost] at hc'pid
      have hcmem2 := List.mem_reverse.mp hcmem
      rcases List.mem_map.mp hcmem2 with ⟨c, hcgroup, hfc⟩
      have hcc : hc.comment = c := by rw [← hfc]
      have hctop3 : c ∈ top3ForPost db.comments p.id := hperm.mem_iff.mp hcgroup
      have hc'notgroup : c' ∉ commentGroups db results false p.id := by
        intro hmem2
        apply hc'not
        rw [List.map_reverse]
        apply List.mem_reverse.mpr
        rw [List.map_map]
        have hcompid : ((fun x : HComment => x.comment) ∘
            (fun c => ({ comment := c,
                         user := commentUsersDict db results false c.user_id } : HComment))) =
              fun c : Comment => c := rfl
        rw [hcompid]
        simpa using hmem2
      have hc'nottop3 : c' ∉ top3ForPost db.comments p.id :=
        fun h => hc'notgroup (hperm.mem_iff.mpr h)
      have hc'filter : c' ∈ db.comments.filter (fun x => x.post_id == p.id) :=
        List.mem_filter.mpr ⟨hc'mem, by simp [hc'pid]⟩
      rw [hcc]
      exact top3ForPost_recent db.comments p.id hctop3 hc'filter hc'nottop3

/-- Witness for C4 at a store with four comments on one post. -/
theorem C4_witness :
    ([exPost1] ≠ []) ∧
      (((make_posts_run exDb4 [exPost1] false).1.countP Query.isTop3Q = 1 ∧
        ∀ ids, Query.commentsAllQ ids ∉ (make_posts_run exDb4 [exPost1] false).1) ∧
      ∀ hp ∈ make_posts exDb4 [exPost1] false,
        hp.comments.length =
            min 3 ((exDb4.comments.filter (fun c => c.post_id == hp.post.id)).length) ∧
        ∀ hc ∈ hp.comments, ∀ c' ∈ exDb4.comments, c'.post_id = hp.post.id →
          c' ∉ hp.comments.map (fun x => x.comment) →
            c'.created_at ≤ hc.comment.created_at) :=
  ⟨by decide, C4_topn_three_most_recent exDb4 [exPost1] (by decide)⟩

/-- C5: every output post's attached comment list is in non-decreasing
`created_at` order (oldest first), in both comment modes. -/
theorem C5_comments_chronological (db : DB) (results : List Post) (ac : Bool)
    (hp : HPost) (hmem : hp ∈ make_posts db results ac) :
    List.Pairwise (fun a b => a.comment.created_at ≤ b.comment.created_at) hp.comments := by
  rcases mem_make_posts hmem with ⟨p, hpmem, hph⟩
  rcases postHydrator_eq_some hph with ⟨u, hu, hdel, hshape⟩
  subst hshape
  show List.Pairwise _ (((commentGroups db results ac p.id).map
      (fun c => { comment := c, user := commentUsersDict db results ac c.user_id })).reverse)
  rw [List.pairwise_reverse]
  refine List.Pairwise.map _ ?_ (pairwise_commentGroups db results ac p.id)
  intro a b hab
  exact hab

/-- Witness for C5 at a concrete store. -/
theorem C5_witness :
    exHPost1 ∈ make_posts exDb0 [exPost1] false ∧
      List.Pairwise (fun a b => a.comment.created_at ≤ b.comment.created_at)
        exHPost1.comments :=
  ⟨by decide, C5_comments_chronological exDb0 [exPost1] false exHPost1 (by decide)⟩

/-- A banned user whose stored hash matches the identity-digest passhash
of password `"pw"`. -/
def exBannedAlice : User :=
  { id := 1, account_name := "alice", passhash := "pw:alice", authority := 0,
    del_flg := true, created_at := 0 }

/-- A store containing only the banned user. -/
def exDbBanned : DB := { users := [exBannedAlice], posts := [], comments := [] }

/-- The same user with `del_flg` unset. -/
def exAliceOk : User :=
  { id := 1, account_name := "alice", passhash := "pw:alice", authority := 0,
    del_flg := false, created_at := 0 }

/-- A store containing only the active user. -/
def exDbOk : DB := { users := [exAliceOk], posts := [], comments := [] }

/-- C6 (amended): login succeeds iff a non-deleted row for the account
exists and its stored hash equals the recomputed passhash; unknown
accounts, banned accounts and hash mismatches all produce the one
generic failure value `none`. -/
theorem C6_login_characterisation (H : String → String) (db : DB) (a pw : String) :
    (∀ u, try_login H db a pw = some u ↔
        (db.users.find? (fun x => x.account_name == a && !x.del_flg) = some u ∧
          calculate_passhash H u.account_name pw = u.passhash)) ∧
      (db.users.find? (fun x => x.account_name == a && !x.del_flg) = none →
        try_login H db a pw = none) := by
  constructor
  · intro u
    unfold try_login
    split
    · rename_i v hf
      rw [hf]
      by_cases hh : calculate_passhash H v.account_name pw == v.passhash
      · rw [if_pos hh]
        constructor
        · intro hvu
          have hveq : v = u := Option.some_inj.mp hvu
          subst hveq
          exact ⟨rfl, beq_iff_eq.mp hh⟩
        · rintro ⟨hvu, _⟩
          exact hvu
      · rw [if_neg hh]
        constructor
        · intro hcontra
          exact absurd hcontra (by simp)
        · rintro ⟨hvu, heq⟩
          have hveq : v = u := Option.some_inj.mp hvu
          subst hveq
          exact absurd (beq_iff_eq.mpr heq) hh
    · rename_i hf
      rw [hf]
      simp
  · intro hf
    unfold try_login
    rw [hf]

/-- Witness for C6 (amended) at a concrete store. -/
theorem C6_witness :
    (∀ u, try_login (fun s => s) exDbOk "alice" "pw" = some u ↔
        (exDbOk.users.find? (fun x => x.account_name == "alice" && !x.del_flg) = some u ∧
          calculate_passhash (fun s => s) u.account_name "pw" = u.passhash)) ∧
      (exDbOk.users.find? (fun x => x.account_name == "alice" && !x.del_flg) = none →
        try_login (fun s => s) exDbOk "alice" "pw" = none) :=
  C6_login_characterisation (fun s => s) exDbOk "alice" "pw"

/-- C6 counterexample: with the identity digest, the stored hash for
account `alice` equals `passhash("alice", "pw")`, yet login fails,
because `try_login` additionally requires `del_flg = 0`; "succeeds iff
the stored hash matches" is false for banned accounts. -/
theorem C6_counterexample :
    exBannedAlice.passhash = calculate_passhash (fun s => s) "alice" "pw" ∧
      exDbBanned.users = [exBannedAlice] ∧
      try_login (fun s => s) exDbBanned "alice" "pw" = none :=
  ⟨rfl, rfl, rfl⟩

/-- An external digest program that exits with status 1 and writes
nothing, e.g. a missing or crashing `openssl`. -/
def failingOpenssl : String → ExtCmd :=
  fun _ => { exitCode := 1, output := "" }

/-- C7 (code bug): a nonzero exit of the digest program does not surface
as an error — `digest` silently yields the empty hash — and in fact no
`openssl` behaviour whatsoever can make `digest` fail, because the
pipeline's exit status is always `sed`'s 0. -/
theorem C7_digest_silent_failure :
    digest failingOpenssl "pw:salt" = DigestResult.ok "" ∧
      ∀ (openssl : String → ExtCmd) (src : String),
        ∃ h, digest openssl src = DigestResult.ok h :=
  ⟨rfl, fun _ _ => ⟨_, rfl⟩⟩

/-- Two posts by user 1 with identical timestamps and ascending ids. -/
def exTiePost1 : Post :=
  { id := 1, user_id := 1, body := "a", mime := "image/png", created_at := 5 }

/-- See `exTiePost1`. -/
def exTiePost2 : Post :=
  { id := 2, user_id := 1, body := "b", mime := "image/png", created_at := 5 }

/-- A store with two timestamp-tied posts. -/
def exDbTie : DB := { users := [exUser1], posts := [exTiePost1, exTiePost2], comments := [] }

/-- C8 (amended): every repository selection result is ordered by
`created_at` descending; no id tie-break is imposed by any of the
queries. -/
theorem C8_rows_created_desc (db : DB) (rows : List Post)
    (h : (∃ uid, userRowsValid db uid rows) ∨ (∃ t, cursorRowsValid db t rows) ∨
         allRowsValid db rows ∨ indexRowsValid db rows) :
    List.Pairwise createdDescPost rows := by
  rcases h with ⟨uid, _, hs⟩ | ⟨t, _, hs⟩ | ⟨_, hs⟩ | ⟨arr, _, hs, heq⟩
  · exact hs
  · exact hs
  · exact hs
  · subst heq
    exact hs.sublist (List.take_sublist _ _)

/-- Witness for C8 (amended) at a concrete store. -/
theorem C8_witness :
    userRowsValid exDbTie 1 [exTiePost1, exTiePost2] ∧
      List.Pairwise createdDescPost [exTiePost1, exTiePost2] :=
  ⟨by unfold userRowsValid; exact ⟨by decide, by decide⟩,
   C8_rows_created_desc exDbTie [exTiePost1, exTiePost2]
     (Or.inl ⟨1, by unfold userRowsValid; exact ⟨by decide, by decide⟩⟩)⟩

/-- C8 counterexample: `[exTiePost1, exTiePost2]` (equal timestamps, ids
ascending) is a valid result of the author query, yet it violates the
total order the claim asserts (ties broken by descending id). -/
theorem C8_counterexample :
    userRowsValid exDbTie 1 [exTiePost1, exTiePost2] ∧
      ¬ List.Pairwise specPostOrder [exTiePost1, exTiePost2] :=
  ⟨by unfold userRowsValid; exact ⟨by decide, by decide⟩, by decide⟩

/-- An empty store. -/
def exDbEmpty : DB := { users := [], posts := [], comments := [] }

/-- C9 (amended): a registration whose account name lacks a 3-character
alphanumeric prefix, or whose password lacks a 6-character word-character
prefix, is rejected with the validation outcome before any
registration-path store access; validation checks only these prefixes,
not the whole string. -/
theorem C9_validation_before_store (H : String → String) (db : DB)
    (name pw : String)
    (h : reMatchAtLeast alnumChar 3 name = false ∨ reMatchAtLeast wordChar 6 pw = false) :
    post_register H db none name pw = ([], RegOutcome.validationError) := by
  have hv : validate_user name pw = false := by
    unfold validate_user
    rcases h with h | h
    · simp [h]
    · cases hn : reMatchAtLeast alnumChar 3 name <;> simp [hn, h]
  unfold post_register
  rw [hv]
  rfl

/-- Witness for C9 (amended): a two-character account name is rejected
with no store access. -/
theorem C9_witness :
    (reMatchAtLeast alnumChar 3 "ab" = false ∨ reMatchAtLeast wordChar 6 "secret" = false) ∧
      post_register (fun s => s) exDbEmpty none "ab" "secret" =
        ([], RegOutcome.validationError) :=
  ⟨Or.inl (by decide),
   C9_validation_before_store (fun s => s) exDbEmpty "ab" "secret" (Or.inl (by decide))⟩

/-- C9 counterexample: `"abc!"` fails the spec's alphanumeric-only
charset rule, yet validation accepts it (the regex is anchored at the
start only), and the registration proceeds to the store. -/
theorem C9_counterexample :
    specNameRule "abc!" = false ∧ validate_user "abc!" "secret" = true ∧
      (post_register (fun s => s) exDbEmpty none "abc!" "secret").1 =
        [StoreOp.selectUserByName "abc!",
         StoreOp.insertUser "abc!" (calculate_passhash (fun s => s) "abc!" "secret")] :=
  ⟨by decide, by decide, rfl⟩

/-- C10: session resolution returns the stored user row even when its
`del_flg` is set — the banned user stays logged in — while `try_login`
can never return that row, because only login filters on `del_flg`. -/
theorem C10_session_ignores_del_flg (db : DB) (uid : Nat) (u : User)
    (hfind : db.users.find? (fun x => x.id == uid) = some u)
    (hdel : u.del_flg = true) :
    get_session_user db (some uid) = some u ∧
      ∀ (H : String → String) (a pw : String), try_login H db a pw ≠ some u := by
  constructor
  · unfold get_session_user
    exact hfind
  · intro H a pw hcontra
    unfold try_login at hcontra
    split at hcontra
    · rename_i v hf
      by_cases hh : calculate_passhash H v.account_name pw == v.passhash
      · rw [if_pos hh] at hcontra
        have hveq : v = u := Option.some_inj.mp hcontra
        have hpred := List.find?_some hf
        rw [hveq] at hpred
        simp [hdel] at hpred
      · rw [if_neg hh] at hcontra
        exact absurd hcontra (by simp)
    · exact absurd hcontra (by simp)

/-- A banned user for the C10 witness. -/
def exBannedBob : User :=
  { id := 7, account_name := "bob", passhash := "x", authority := 0,
    del_flg := true, created_at := 0 }

/-- A store containing only the banned user `bob`. -/
def exDbBob : DB := { users := [exBannedBob], posts := [], comments := [] }

/-- Witness for C10 at a concrete store. -/
theorem C10_witness :
    exDbBob.users.find? (fun x => x.id == 7) = some exBannedBob ∧
      exBannedBob.del_flg = true ∧
      (get_session_user exDbBob (some 7) = some exBannedBob ∧
        ∀ (H : String → String) (a pw : String),
          try_login H exDbBob a pw ≠ some exBannedBob) :=
  ⟨by decide, rfl, C10_session_ignores_del_flg exDbBob 7 exBannedBob (by decide) rfl⟩
